import Mathlib

/-!
Verification of the ServeSense firmware (classifier and logger variants).

The definitions below are a shallow embedding of the two C++ translation
units under src/firmware.  Floating-point sensor values and quantization
scales are modelled by rationals; machine integers by Nat/Int with explicit
reduction modulo 2^w where the source can wrap.  External collaborators
(the IMU driver, the BLE transport, the TFLite executor) appear as
parameters: the executor is a function that may fail (Option), the
transport connection count and IMU read results are inputs of the loop
step.
-/

namespace Classifier

/-- Number of samples in a capture window (kSequenceLength in main.cpp). -/
def kSequenceLength : Nat := 160

/-- Number of IMU channels per sample (kNumFeatures in main.cpp). -/
def kNumFeatures : Nat := 6

/-- Number of output classes (kNumClasses in main.cpp). -/
def kNumClasses : Nat := 4

/-- Class label strings, as in the labels array of main.cpp. -/
def labels : Fin 4 → String
  | 0 => "good-serve"
  | 1 => "jerky-motion"
  | 2 => "lacks-pronation"
  | 3 => "short-swing"

/-- The C roundf function: round half away from zero. -/
def roundAway (x : ℚ) : ℤ :=
  if 0 ≤ x then ⌊x + 1/2⌋ else -⌊-x + 1/2⌋

/-- Clamp an integer to the int8 range, as in classifyServe lines 259-260. -/
def clampI8 (q : ℤ) : ℤ :=
  if q < -128 then -128 else if q > 127 then 127 else q

/-- Affine quantization of classifyServe line 256: q = roundf(v / scale) + zp,
then clamped to int8. -/
def quantize (v scale : ℚ) (zp : ℤ) : ℤ :=
  clampI8 (roundAway (v / scale) + zp)

/-- Affine dequantization of classifyServe line 283: (q - zp) * scale. -/
def dequantize (q zp : ℤ) (scale : ℚ) : ℚ :=
  (q - zp) * scale

/-- The value fed to quantization for tensor cell (i, j): the captured
sample when i is below actual_samples = min(sample_count, 160), else the
zero pad (classifyServe lines 248-253). -/
def inputValue (buf : Nat → Nat → ℚ) (count i j : Nat) : ℚ :=
  if i < min count kSequenceLength then buf i j else 0

/-- The int8 model input tensor cell produced by the fill loop of
classifyServe lines 246-264. -/
def inputTensor (buf : Nat → Nat → ℚ) (count : Nat) (scale : ℚ) (zp : ℤ)
    (i j : Nat) : ℤ :=
  quantize (inputValue buf count i j) scale zp

theorem roundAway_zero : roundAway 0 = 0 := by
  norm_num [roundAway]

/-- Rounding half away from zero lands within 1/2 of the argument. -/
theorem abs_roundAway_sub_le (x : ℚ) : |(roundAway x : ℚ) - x| ≤ 1/2 := by
  unfold roundAway
  split
  · rw [abs_le]
    have h1 := Int.floor_le (x + 1/2)
    have h2 := Int.lt_floor_add_one (x + 1/2)
    constructor <;> linarith
  · rw [abs_le]
    push_cast
    have h1 := Int.floor_le (-x + 1/2)
    have h2 := Int.lt_floor_add_one (-x + 1/2)
    constructor <;> linarith

theorem clampI8_of_mem (q : ℤ) (h1 : -128 ≤ q) (h2 : q ≤ 127) :
    clampI8 q = q := by
  unfold clampI8
  rw [if_neg (by omega), if_neg (by omega)]

/-- C1: for a window with count < 160 samples, every tensor cell at a
sample index at or beyond count (any channel) quantizes to exactly the
input zero point, for every positive scale and every zero point in the
int8 range. -/
theorem padded_cells_quantize_to_zero_point
    (buf : Nat → Nat → ℚ) (count i j : Nat) (scale : ℚ) (zp : ℤ)
    (hcount : count < 160) (hi : count ≤ i)
    (hscale : 0 < scale) (hzp1 : -128 ≤ zp) (hzp2 : zp ≤ 127) :
    inputTensor buf count scale zp i j = zp := by
  have hval : inputValue buf count i j = 0 := by
    unfold inputValue
    rw [if_neg]
    simp [kSequenceLength]
    omega
  unfold inputTensor quantize
  rw [hval]
  rw [zero_div, roundAway_zero, zero_add]
  exact clampI8_of_mem zp hzp1 hzp2

/-- Witness for C1 at a concrete window. -/
theorem padded_cells_quantize_to_zero_point_witness :
    inputTensor (fun _ _ => (3 : ℚ)) 40 (1/2) (-5) 40 0 = -5 :=
  padded_cells_quantize_to_zero_point _ 40 40 0 (1/2) (-5)
    (by norm_num) (le_refl _) (by norm_num) (by norm_num) (by norm_num)

/-- C2: for a value whose (unclamped) quantized code lies in the int8
range, dequantizing the quantized value recovers the value to within one
scale unit. -/
theorem dequantize_quantize_close
    (v scale : ℚ) (zp : ℤ) (hscale : 0 < scale)
    (hlo : -128 ≤ roundAway (v / scale) + zp)
    (hhi : roundAway (v / scale) + zp ≤ 127) :
    |dequantize (quantize v scale zp) zp scale - v| ≤ scale := by
  unfold quantize
  rw [clampI8_of_mem _ hlo hhi]
  unfold dequantize
  have hne : scale ≠ 0 := ne_of_gt hscale
  have hkey : ((roundAway (v / scale) + zp : ℤ) : ℚ) - (zp : ℚ) =
      (roundAway (v / scale) : ℚ) := by push_cast; ring
  rw [hkey]
  have hround := abs_roundAway_sub_le (v / scale)
  have hexp : (roundAway (v / scale) : ℚ) * scale - v =
      ((roundAway (v / scale) : ℚ) - v / scale) * scale := by
    field_simp
  rw [hexp, abs_mul, abs_of_pos hscale]
  calc |(roundAway (v / scale) : ℚ) - v / scale| * scale
      ≤ (1/2) * scale := by
        apply mul_le_mul_of_nonneg_right hround (le_of_lt hscale)
    _ ≤ scale := by linarith

/-- Witness for C2 at v = 3/4, scale = 1/2, zp = 10: the quantized code is
round(1.5) + 10 = 12, dequantizes to 1, and the error 1/4 is at most the
scale 1/2. -/
theorem dequantize_quantize_close_witness :
    |dequantize (quantize (3/4) (1/2) 10) 10 (1/2) - 3/4| ≤ (1/2 : ℚ) :=
  dequantize_quantize_close (3/4) (1/2) 10 (by norm_num)
    (by norm_num [roundAway]) (by norm_num [roundAway])

/-- One iteration of the argmax loop of classifyServe lines 292-295: the
accumulator (best_idx, max_prob) is replaced only on a strict increase. -/
def amaxStep (p : Fin 4 → ℚ) (acc : Fin 4 × ℚ) (i : Fin 4) : Fin 4 × ℚ :=
  if p i > acc.2 then (i, p i) else acc

/-- The argmax loop of classifyServe lines 276-296, started from
best_idx = 0, max_prob = -1.0 and run over the four classes in order. -/
def selectBest4 (p : Fin 4 → ℚ) : Fin 4 × ℚ :=
  amaxStep p (amaxStep p (amaxStep p (amaxStep p ((0 : Fin 4), (-1 : ℚ)) 0) 1) 2) 3

/-- Stated from the spec wording: index i holds the strictly greatest
probability, with the first-seen index winning exact ties, exactly when
no index beats it and every earlier index is strictly below it. -/
def isFirstMax (p : Fin 4 → ℚ) (i : Fin 4) : Prop :=
  (∀ j, p j ≤ p i) ∧ ∀ j, j < i → p j < p i

instance (p : Fin 4 → ℚ) (i : Fin 4) : Decidable (isFirstMax p i) := by
  unfold isFirstMax; infer_instance

theorem isFirstMax0 (p : Fin 4 → ℚ) (h1 : p 1 ≤ p 0) (h2 : p 2 ≤ p 0)
    (h3 : p 3 ≤ p 0) : isFirstMax p 0 := by
  refine ⟨fun j => ?_, fun j hj => absurd hj (by omega)⟩
  fin_cases j <;> first | exact le_refl _ | assumption

theorem isFirstMax1 (p : Fin 4 → ℚ) (h0 : p 0 < p 1) (h2 : p 2 ≤ p 1)
    (h3 : p 3 ≤ p 1) : isFirstMax p 1 := by
  refine ⟨fun j => ?_, fun j hj => ?_⟩
  · fin_cases j <;> first | exact le_refl _ | exact le_of_lt h0 | assumption
  · fin_cases j <;> first | exact h0 | exact absurd hj (by decide)

theorem isFirstMax2 (p : Fin 4 → ℚ) (h0 : p 0 < p 2) (h1 : p 1 < p 2)
    (h3 : p 3 ≤ p 2) : isFirstMax p 2 := by
  refine ⟨fun j => ?_, fun j hj => ?_⟩
  · fin_cases j <;>
      first | exact le_refl _ | exact le_of_lt h0 | exact le_of_lt h1 | assumption
  · fin_cases j <;> first | exact h0 | exact h1 | exact absurd hj (by decide)

theorem isFirstMax3 (p : Fin 4 → ℚ) (h0 : p 0 < p 3) (h1 : p 1 < p 3)
    (h2 : p 2 < p 3) : isFirstMax p 3 := by
  refine ⟨fun j => ?_, fun j hj => ?_⟩
  · fin_cases j <;>
      first | exact le_refl _ | exact le_of_lt h0 | exact le_of_lt h1 |
        exact le_of_lt h2
  · fin_cases j <;> first | exact h0 | exact h1 | exact h2 | exact absurd hj (by decide)

/-- Output tensor that defeats the argmax accumulator seed: every class
dequantizes at or below -1.0. -/
def cexOut : Fin 4 → ℤ
  | 0 => -3
  | 1 => -2
  | 2 => -2
  | 3 => -2

/-- C3 counterexample: with output scale 1 and zero point 0, the output
tensor (-3, -2, -2, -2) dequantizes to probabilities (-3, -2, -2, -2);
the strictly greatest value sits first at index 1, yet the loop, seeded
with max_prob = -1.0, never updates and reports index 0. -/
theorem selectBest4_not_firstMax_cex :
    (selectBest4 (fun i => dequantize (cexOut i) 0 1)).1 = 0 ∧
      ¬ isFirstMax (fun i => dequantize (cexOut i) 0 1) 0 := by
  have hsel : selectBest4 (fun i => dequantize (cexOut i) 0 1) = (0, -1) := by
    norm_num [selectBest4, amaxStep, dequantize, cexOut]
  refine ⟨by rw [hsel], ?_⟩
  rintro ⟨hall, -⟩
  have h1 := hall 1
  norm_num [dequantize, cexOut] at h1

/-- C3 amended: whenever some class dequantizes strictly above -1.0 (the
accumulator seed; always true for softmax-style outputs in [0, 1]), the
loop selects the class with the strictly greatest probability, the
first-seen index winning exact ties, and reports that class's value. -/
theorem selectBest4_firstMax (p : Fin 4 → ℚ) (h : ∃ i, -1 < p i) :
    isFirstMax p (selectBest4 p).1 ∧ (selectBest4 p).2 = p (selectBest4 p).1 := by
  have h4 : -1 < p 0 ∨ -1 < p 1 ∨ -1 < p 2 ∨ -1 < p 3 := by
    obtain ⟨i, hi⟩ := h
    fin_cases i
    · exact Or.inl hi
    · exact Or.inr (Or.inl hi)
    · exact Or.inr (Or.inr (Or.inl hi))
    · exact Or.inr (Or.inr (Or.inr hi))
  unfold selectBest4 amaxStep
  split_ifs <;>
    dsimp only at * <;>
    first
      | exact ⟨isFirstMax0 p (by linarith) (by linarith) (by linarith), rfl⟩
      | exact ⟨isFirstMax1 p (by linarith) (by linarith) (by linarith), rfl⟩
      | exact ⟨isFirstMax2 p (by linarith) (by linarith) (by linarith), rfl⟩
      | exact ⟨isFirstMax3 p (by linarith) (by linarith) (by linarith), rfl⟩
      | (exfalso; rcases h4 with hx | hx | hx | hx <;> linarith)

/-- Probability vector of the spec's tie example (0.5, 0.5, 0.1, 0.1). -/
def tieProbs : Fin 4 → ℚ
  | 0 => 1/2
  | 1 => 1/2
  | 2 => 1/10
  | 3 => 1/10

/-- Witness for the amended C3 at the spec's tie example: probabilities
(0.5, 0.5, 0.1, 0.1) select index 0. -/
theorem selectBest4_firstMax_witness :
    isFirstMax tieProbs (selectBest4 tieProbs).1 ∧ (selectBest4 tieProbs).1 = 0 := by
  have h := selectBest4_firstMax tieProbs ⟨0, by norm_num [tieProbs]⟩
  refine ⟨h.1, ?_⟩
  norm_num [selectBest4, amaxStep, tieProbs]

/-- One probability as rendered by the %.1f conversion of the snprintf
calls in classifyServe lines 311-327: sign, integer digits, a dot and one
fractional digit, after rounding the value times 10 to the nearest
integer (exact decimal ties do not arise in the claims). -/
def fmt1 (x : ℚ) : String :=
  let n : ℤ := round (x * 10)
  let a : ℕ := n.natAbs
  (if n < 0 then "-" else "") ++ toString (a / 10) ++ "." ++ toString (a % 10)

/-- Rendering of one probability in the result message: %.1f applied to
probabilities[i] * 100. -/
def fmtPct (p : ℚ) : String := fmt1 (p * 100)

/-- Confidence threshold kMinConfidence = 0.35f of classifyServe line 299. -/
def kMinConfidence : ℚ := 35/100

/-- Observable outcome of one classifyServe call: the message written to
the result characteristic and which haptic pattern (by class index) was
played, if any. -/
structure ClassifyOutcome where
  resultMsg : Option String
  feedback : Option (Fin 4)

/-- The classifier state classifyServe can reach: the recording flag, the
window fill level and the window contents (is_recording, sample_count and
imu_buffer of main.cpp). -/
structure ClassifierState where
  is_recording : Bool
  sample_count : Nat
  buf : Nat → Nat → ℚ

/-- classifyServe of main.cpp lines 230-350.  The model executor
(interpreter->Invoke plus the output tensor read) is the parameter
invoke and may fail; quantization parameters are inputs because the code
reads them from the loaded model at run time. -/
def classifyServe (st : ClassifierState) (inScale : ℚ) (inZp : ℤ)
    (outScale : ℚ) (outZp : ℤ)
    (invoke : (Nat → Nat → ℤ) → Option (Fin 4 → ℤ)) :
    ClassifierState × ClassifyOutcome :=
  match invoke (inputTensor st.buf st.sample_count inScale inZp) with
  | none => (st, ⟨none, none⟩)
  | some out =>
      let probs : Fin 4 → ℚ := fun i => dequantize (out i) outZp outScale
      let best := selectBest4 probs
      let is_confident := kMinConfidence ≤ best.2
      let probsStr := fmtPct (probs 0) ++ "," ++ fmtPct (probs 1) ++ ","
        ++ fmtPct (probs 2) ++ "," ++ fmtPct (probs 3)
      (st,
       ⟨some (if is_confident then labels best.1 ++ ":" ++ probsStr
              else "UNKNOWN:" ++ probsStr),
        if is_confident then some best.1 else none⟩)

/-- C4: when inference succeeds, the result is confident exactly when the
maximum dequantized probability reaches 0.35 (the boundary included): a
confident result plays the haptic pattern keyed by the winning class,
and an unconfident one plays nothing and labels the message UNKNOWN. -/
theorem confidence_gate (st : ClassifierState) (inScale : ℚ) (inZp : ℤ)
    (outScale : ℚ) (outZp : ℤ)
    (invoke : (Nat → Nat → ℤ) → Option (Fin 4 → ℤ)) (out : Fin 4 → ℤ)
    (probs : Fin 4 → ℚ)
    (hinv : invoke (inputTensor st.buf st.sample_count inScale inZp) = some out)
    (hprobs : probs = fun i => dequantize (out i) outZp outScale) :
    (kMinConfidence ≤ (selectBest4 probs).2 →
      (classifyServe st inScale inZp outScale outZp invoke).2.feedback =
        some (selectBest4 probs).1) ∧
    ((selectBest4 probs).2 < kMinConfidence →
      (classifyServe st inScale inZp outScale outZp invoke).2.feedback = none ∧
      ∃ s, (classifyServe st inScale inZp outScale outZp invoke).2.resultMsg =
        some ("UNKNOWN:" ++ s)) := by
  subst hprobs
  unfold classifyServe
  rw [hinv]
  dsimp only
  constructor
  · intro h
    rw [if_pos h]
  · intro h
    refine ⟨?_, ?_⟩
    · rw [if_neg (not_le.mpr h)]
    · rw [if_neg (not_le.mpr h)]
      exact ⟨_, rfl⟩

/-- Window contents used by the concrete classifier scenarios. -/
def bufW : Nat → Nat → ℚ := fun _ _ => 0

/-- Classifier state used by the concrete scenarios: recording just
stopped with 40 captured samples. -/
def stW : ClassifierState := ⟨false, 40, bufW⟩

/-- Output tensor of the concrete scenarios. -/
def outW : Fin 4 → ℤ
  | 0 => 1
  | 1 => 0
  | 2 => 0
  | 3 => 0

/-- Dequantized probabilities of the concrete scenarios with output scale
0.35 and zero point 0: exactly (0.35, 0, 0, 0). -/
def probsW : Fin 4 → ℚ := fun i => dequantize (outW i) 0 (35/100)

theorem selectBest4_probsW : selectBest4 probsW = (0, 35/100) := by
  norm_num [selectBest4, amaxStep, probsW, dequantize, outW]

/-- Witness for C4 at the exact 0.35 boundary: the maximum probability is
exactly 0.35 and the pattern for class 0 plays. -/
theorem confidence_gate_witness :
    (classifyServe stW 1 0 (35/100) 0 (fun _ => some outW)).2.feedback =
      some 0 := by
  have h := (confidence_gate stW 1 0 (35/100) 0 (fun _ => some outW) outW
    probsW rfl rfl).1
  rw [selectBest4_probsW] at h
  exact h (by norm_num [kMinConfidence])

theorem toString_digit_len (d : ℕ) (hd : d < 10) : (toString d).length = 1 := by
  interval_cases d <;> rfl

/-- C5: when inference succeeds, a result message is emitted whatever the
confidence outcome, of the form label-or-UNKNOWN, a colon, then the four
per-class probabilities as decimal percentages separated by commas; and
every rendered percentage ends in a dot followed by exactly one digit. -/
theorem result_message_format (st : ClassifierState) (inScale : ℚ) (inZp : ℤ)
    (outScale : ℚ) (outZp : ℤ)
    (invoke : (Nat → Nat → ℤ) → Option (Fin 4 → ℤ)) (out : Fin 4 → ℤ)
    (probs : Fin 4 → ℚ)
    (hinv : invoke (inputTensor st.buf st.sample_count inScale inZp) = some out)
    (hprobs : probs = fun i => dequantize (out i) outZp outScale) :
    ((classifyServe st inScale inZp outScale outZp invoke).2.resultMsg =
      some ((if kMinConfidence ≤ (selectBest4 probs).2
              then labels (selectBest4 probs).1 else "UNKNOWN") ++ ":"
        ++ fmtPct (probs 0) ++ "," ++ fmtPct (probs 1) ++ ","
        ++ fmtPct (probs 2) ++ "," ++ fmtPct (probs 3)))
    ∧ ∀ q : ℚ, ∃ (pre : String) (d : ℕ), d < 10 ∧ (toString d).length = 1 ∧
        fmtPct q = pre ++ "." ++ toString d := by
  subst hprobs
  constructor
  · unfold classifyServe
    rw [hinv]
    dsimp only
    by_cases h :
        kMinConfidence ≤ (selectBest4 fun i => dequantize (out i) outZp outScale).2
    · rw [if_pos h, if_pos h]
      simp [← String.append_assoc]
    · rw [if_neg h, if_neg h]
      simp [← String.append_assoc]
  · intro q
    exact ⟨(if round (q * 100 * 10) < 0 then "-" else "")
        ++ toString ((round (q * 100 * 10)).natAbs / 10),
      (round (q * 100 * 10)).natAbs % 10,
      Nat.mod_lt _ (by norm_num),
      toString_digit_len _ (Nat.mod_lt _ (by norm_num)), rfl⟩

theorem probsW_zero : probsW 0 = 35/100 := by
  norm_num [probsW, dequantize, outW]

theorem probsW_rest : probsW 1 = 0 ∧ probsW 2 = 0 ∧ probsW 3 = 0 := by
  norm_num [probsW, dequantize, outW]

theorem fmtPct_35 : fmtPct (35/100) = "35.0" := by
  have h : round ((35 : ℚ)/100 * 100 * 10) = 350 := by norm_num [round_eq]
  unfold fmtPct fmt1
  rw [h]
  rfl

theorem fmtPct_zero : fmtPct 0 = "0.0" := by
  have h : round ((0 : ℚ) * 100 * 10) = 0 := by norm_num [round_eq]
  unfold fmtPct fmt1
  rw [h]
  rfl

/-- Witness for C5 at the concrete scenario: probabilities
(0.35, 0, 0, 0) yield the confident message good-serve:35.0,0.0,0.0,0.0. -/
theorem result_message_format_witness :
    (classifyServe stW 1 0 (35/100) 0 (fun _ => some outW)).2.resultMsg =
      some "good-serve:35.0,0.0,0.0,0.0" := by
  have h := (result_message_format stW 1 0 (35/100) 0 (fun _ => some outW)
    outW probsW rfl rfl).1
  rw [selectBest4_probsW, probsW_zero, probsW_rest.1, probsW_rest.2.1,
    probsW_rest.2.2, fmtPct_35, fmtPct_zero] at h
  rw [h, if_pos (by norm_num [kMinConfidence])]
  rfl

/-- C9: when the model executor fails, classifyServe abandons the attempt
untouched: the classifier state is returned unchanged, no message is
written and no haptic pattern plays. -/
theorem inference_failure_no_effect (st : ClassifierState) (inScale : ℚ)
    (inZp : ℤ) (outScale : ℚ) (outZp : ℤ)
    (invoke : (Nat → Nat → ℤ) → Option (Fin 4 → ℤ))
    (hinv : invoke (inputTensor st.buf st.sample_count inScale inZp) = none) :
    classifyServe st inScale inZp outScale outZp invoke =
      (st, ⟨none, none⟩) := by
  unfold classifyServe
  rw [hinv]

/-- Witness for C9 with an executor that always fails. -/
theorem inference_failure_no_effect_witness :
    classifyServe stW 1 0 1 0 (fun _ => none) = (stW, ⟨none, none⟩) :=
  inference_failure_no_effect stW 1 0 1 0 (fun _ => none) rfl

end Classifier

namespace Logger

/-- One IMU reading: the six scaled channels icmRead produces. -/
structure Imu where
  ax : ℚ
  ay : ℚ
  az : ℚ
  gx : ℚ
  gy : ℚ
  gz : ℚ

/-- ServePacket of the logger main.cpp: timestamp, session, sequence, the
six channels and the flag byte (bit0 capture on, bit1 serve marker). -/
structure ServePacket where
  millis_ms : Nat
  session : Nat
  sequence : Nat
  ax : ℚ
  ay : ℚ
  az : ℚ
  gx : ℚ
  gy : ℚ
  gz : ℚ
  flags : Nat

/-- Logger firmware state shared between the control callback, the button
interrupt and the main loop: captureEnabled, serveMarker, sessionId
(uint16), sampleSerial (uint32) and the static last of onButtonFalling. -/
structure LoggerState where
  captureEnabled : Bool
  serveMarker : Bool
  sessionId : Nat
  sampleSerial : Nat
  lastBtn : Nat

/-- ControlCallbacks::onWrite of the logger main.cpp, lines 120-144:
0x00 stops capture, 0x01 starts a new session (marker set, session id
incremented modulo 2^16, sequence reset), 0x02 sets the marker, anything
else is ignored. -/
def onWrite (st : LoggerState) (cmd : Nat) : LoggerState :=
  if cmd = 0 then { st with captureEnabled := false }
  else if cmd = 1 then
    { st with
      captureEnabled := true
      serveMarker := true
      sessionId := (st.sessionId + 1) % 65536
      sampleSerial := 0 }
  else if cmd = 2 then { st with serveMarker := true }
  else st

/-- onButtonFalling of the logger main.cpp, lines 147-158: edges within
200 ms of the previously accepted one are dropped; an accepted edge
records its time, toggles capture, on a toggle to ON increments the
session and resets the sequence, and always sets the marker. -/
def onButtonFalling (st : LoggerState) (now : Nat) : LoggerState :=
  if now - st.lastBtn < 200 then st
  else
    let st1 := { st with lastBtn := now, captureEnabled := !st.captureEnabled }
    let st2 :=
      if st1.captureEnabled then
        { st1 with sessionId := (st1.sessionId + 1) % 65536, sampleSerial := 0 }
      else st1
    { st2 with serveMarker := true }

/-- The switch-transition block of the logger loop, lines 254-282: an
OFF-to-ON edge starts a new session with the marker set, an ON-to-OFF
edge stops capture, anything else changes nothing. -/
def switchCheck (st : LoggerState) (switchOn lastSwitch : Bool) : LoggerState :=
  if switchOn && !lastSwitch then
    { st with
      captureEnabled := true
      sessionId := (st.sessionId + 1) % 65536
      sampleSerial := 0
      serveMarker := true }
  else if !switchOn && lastSwitch then
    { st with captureEnabled := false }
  else st

/-- The packet built at lines 306-312: timestamp, session, post-increment
sequence, the six channels and the flag byte 0x01 plus 0x02 when the
marker is pending. -/
def mkPkt (st : LoggerState) (now : Nat) (m : Imu) : ServePacket :=
  { millis_ms := now % 4294967296
    session := st.sessionId
    sequence := st.sampleSerial
    ax := m.ax, ay := m.ay, az := m.az
    gx := m.gx, gy := m.gy, gz := m.gz
    flags := 1 + (if st.serveMarker then 2 else 0) }

/-- State after one capturing sample: sequence incremented (uint32) and the
one-shot marker cleared (lines 309 and 314). -/
def stepState (st : LoggerState) : LoggerState :=
  { st with
    sampleSerial := (st.sampleSerial + 1) % 4294967296
    serveMarker := false }

/-- The sampling tail of the logger loop, lines 291-321: the IMU is read
(imu is none on a failed read); when capture is enabled a packet is built
carrying the post-increment sequence and the one-shot marker, the marker
is cleared, and the packet is notified only when a central is connected.
Returns (new state, packet built, packet handed to the transport). -/
def loopSampleStep (st : LoggerState) (now : Nat) (imu : Option Imu)
    (connected : Nat) : LoggerState × Option ServePacket × Option ServePacket :=
  match imu with
  | none => (st, none, none)
  | some m =>
    if st.captureEnabled then
      (stepState st, some (mkPkt st now m),
        if 0 < connected then some (mkPkt st now m) else none)
    else (st, none, none)

/-- State for the C6 counterexample: capture on, no marker pending. -/
def stGate : LoggerState := ⟨true, false, 1, 0, 0⟩

/-- The all-zero IMU reading used by concrete logger scenarios. -/
def imuZero : Imu := ⟨0, 0, 0, 0, 0, 0⟩

/-- C6 counterexample: with capture active and no receiver attached
(connected count 0), the gating condition of the claim — (capture active
or marker pending) and a receiver attached — is false, yet the loop still
builds a packet; only the notify is skipped. -/
theorem packet_gating_cex :
    ¬ ((stGate.captureEnabled = true ∨ stGate.serveMarker = true) ∧
        0 < (0 : Nat)) ∧
    ((loopSampleStep stGate 100 (some imuZero) 0).2.1.isSome = true ∧
      (loopSampleStep stGate 100 (some imuZero) 0).2.2 = none) := by
  refine ⟨fun h => absurd h.2 (by norm_num), ?_, ?_⟩ <;>
    simp [loopSampleStep, stGate]

/-- C6 amended: when the IMU read succeeds, a packet is built exactly
when capture is active (a pending marker alone never triggers one, and no
receiver is required for construction), and it is handed to the transport
exactly when additionally a receiver is attached; when capture is off
nothing is built or sent. -/
theorem packet_gating (st : LoggerState) (now : Nat) (imu : Option Imu)
    (conn : Nat) (m : Imu) (him : imu = some m) :
    ((loopSampleStep st now imu conn).2.1.isSome = true ↔
      st.captureEnabled = true) ∧
    ((loopSampleStep st now imu conn).2.2.isSome = true ↔
      st.captureEnabled = true ∧ 0 < conn) := by
  subst him
  by_cases hc : st.captureEnabled <;>
    by_cases hconn : 0 < conn <;>
      simp [loopSampleStep, hc, hconn]

/-- Witness for the amended C6: capture on and one central connected
builds and sends; capture on with nobody connected builds only. -/
theorem packet_gating_witness :
    ((loopSampleStep stGate 100 (some imuZero) 1).2.1.isSome = true ∧
      (loopSampleStep stGate 100 (some imuZero) 1).2.2.isSome = true) := by
  have h := packet_gating stGate 100 (some imuZero) 1 imuZero rfl
  exact ⟨h.1.mpr rfl, h.2.mpr ⟨rfl, by norm_num⟩⟩

/-- C8: relative to an accepted button toggle at time t1, a second edge
less than 200 ms later is ignored entirely, while a second edge at least
200 ms later is accepted and toggles capture back. -/
theorem debounce (st : LoggerState) (t1 t2 : Nat)
    (h1 : 200 ≤ t1 - st.lastBtn) :
    (t2 - t1 < 200 →
      onButtonFalling (onButtonFalling st t1) t2 = onButtonFalling st t1) ∧
    (200 ≤ t2 - t1 →
      (onButtonFalling (onButtonFalling st t1) t2).captureEnabled =
        st.captureEnabled ∧
      (onButtonFalling (onButtonFalling st t1) t2).lastBtn = t2) := by
  have hne1 : ¬ (t1 - st.lastBtn < 200) := by omega
  constructor
  · intro h2
    have hl : (onButtonFalling st t1).lastBtn = t1 := by
      by_cases hc : st.captureEnabled <;> simp [onButtonFalling, hne1, hc]
    rw [onButtonFalling, hl, if_pos h2]
  · intro h2
    have hne2 : ¬ (t2 - t1 < 200) := by omega
    by_cases hc : st.captureEnabled <;>
      simp [onButtonFalling, hne1, hne2, hc]

/-- Fresh idle logger state for the debounce scenario. -/
def stBtn : LoggerState := ⟨false, false, 0, 0, 0⟩

/-- Witness for C8: edges at 1000 and 1100 collapse (one toggle), edges
at 1000 and 1250 both count (capture toggled twice, back to start). -/
theorem debounce_witness :
    onButtonFalling (onButtonFalling stBtn 1000) 1100 =
      onButtonFalling stBtn 1000 ∧
    (onButtonFalling (onButtonFalling stBtn 1000) 1250).captureEnabled =
      stBtn.captureEnabled := by
  exact ⟨(debounce stBtn 1000 1100 (by norm_num [stBtn])).1 (by norm_num),
    ((debounce stBtn 1000 1250 (by norm_num [stBtn])).2 (by norm_num)).1⟩

/-- Whether a packet carries the marker bit (bit1 of the flag byte). -/
def markerBit (p : ServePacket) : Bool := p.flags.testBit 1

/-- Packets built while running the sampling tail over a list of loop
iterations (time, IMU read result, connected count), threading the state. -/
def builtPackets (st : LoggerState) :
    List (Nat × Option Imu × Nat) → List ServePacket
  | [] => []
  | (now, imu, conn) :: rest =>
    (loopSampleStep st now imu conn).2.1.toList ++
      builtPackets (loopSampleStep st now imu conn).1 rest

/-- Packets handed to the transport over the same run. -/
def sentPackets (st : LoggerState) :
    List (Nat × Option Imu × Nat) → List ServePacket
  | [] => []
  | (now, imu, conn) :: rest =>
    (loopSampleStep st now imu conn).2.2.toList ++
      sentPackets (loopSampleStep st now imu conn).1 rest

/-- Number of packets in a list carrying the marker bit. -/
def countFlagged (l : List ServePacket) : Nat := (l.filter markerBit).length

theorem countFlagged_cons (p : ServePacket) (l : List ServePacket) :
    countFlagged (p :: l) = (if markerBit p then 1 else 0) + countFlagged l := by
  by_cases h : markerBit p <;>
    simp [countFlagged, List.filter_cons, h] <;> omega

theorem markerBit_mkPkt (st : LoggerState) (now : Nat) (m : Imu) :
    markerBit (mkPkt st now m) = st.serveMarker := by
  cases hm : st.serveMarker <;> simp [markerBit, mkPkt, hm] <;> rfl

theorem builtPackets_cons_none (st : LoggerState) (now conn : Nat)
    (rest : List (Nat × Option Imu × Nat)) :
    builtPackets st ((now, none, conn) :: rest) = builtPackets st rest := by
  simp [builtPackets, loopSampleStep]

theorem builtPackets_cons_off (st : LoggerState) (now conn : Nat) (m : Imu)
    (rest : List (Nat × Option Imu × Nat)) (hc : st.captureEnabled = false) :
    builtPackets st ((now, some m, conn) :: rest) = builtPackets st rest := by
  simp [builtPackets, loopSampleStep, hc]

theorem builtPackets_cons_on (st : LoggerState) (now conn : Nat) (m : Imu)
    (rest : List (Nat × Option Imu × Nat)) (hc : st.captureEnabled = true) :
    builtPackets st ((now, some m, conn) :: rest) =
      mkPkt st now m :: builtPackets (stepState st) rest := by
  simp [builtPackets, loopSampleStep, hc]

theorem sentPackets_cons_none (st : LoggerState) (now conn : Nat)
    (rest : List (Nat × Option Imu × Nat)) :
    sentPackets st ((now, none, conn) :: rest) = sentPackets st rest := by
  simp [sentPackets, loopSampleStep]

theorem sentPackets_cons_off (st : LoggerState) (now conn : Nat) (m : Imu)
    (rest : List (Nat × Option Imu × Nat)) (hc : st.captureEnabled = false) :
    sentPackets st ((now, some m, conn) :: rest) = sentPackets st rest := by
  simp [sentPackets, loopSampleStep, hc]

theorem sentPackets_cons_on (st : LoggerState) (now conn : Nat) (m : Imu)
    (rest : List (Nat × Option Imu × Nat)) (hc : st.captureEnabled = true) :
    sentPackets st ((now, some m, conn) :: rest) =
      (if 0 < conn then [mkPkt st now m] else []) ++
        sentPackets (stepState st) rest := by
  by_cases hconn : 0 < conn <;> simp [sentPackets, loopSampleStep, hc, hconn]

/-- A run started with no pending marker builds no flagged packet (the
runs modelled here contain no further mark or start commands). -/
theorem no_marker_no_flagged (steps : List (Nat × Option Imu × Nat))
    (st : LoggerState) (hm : st.serveMarker = false) :
    countFlagged (builtPackets st steps) = 0 := by
  induction steps generalizing st with
  | nil => rfl
  | cons s rest ih =>
    obtain ⟨now, imu, conn⟩ := s
    cases imu with
    | none =>
      rw [builtPackets_cons_none]
      exact ih st hm
    | some m =>
      cases hc : st.captureEnabled with
      | false =>
        rw [builtPackets_cons_off st now conn m rest hc]
        exact ih st hm
      | true =>
        rw [builtPackets_cons_on st now conn m rest hc, countFlagged_cons,
          markerBit_mkPkt, hm]
        simpa using ih (stepState st) rfl

/-- Every packet handed to the transport was built, so flagged handed
packets never outnumber flagged built ones. -/
theorem sent_flagged_le_built (steps : List (Nat × Option Imu × Nat))
    (st : LoggerState) :
    countFlagged (sentPackets st steps) ≤ countFlagged (builtPackets st steps) := by
  induction steps generalizing st with
  | nil => exact le_refl _
  | cons s rest ih =>
    obtain ⟨now, imu, conn⟩ := s
    cases imu with
    | none =>
      rw [builtPackets_cons_none, sentPackets_cons_none]
      exact ih st
    | some m =>
      cases hc : st.captureEnabled with
      | false =>
        rw [builtPackets_cons_off st now conn m rest hc,
          sentPackets_cons_off st now conn m rest hc]
        exact ih st
      | true =>
        rw [builtPackets_cons_on st now conn m rest hc,
          sentPackets_cons_on st now conn m rest hc, countFlagged_cons]
        by_cases hconn : 0 < conn
        · rw [if_pos hconn]
          simpa [countFlagged_cons] using ih (stepState st)
        · rw [if_neg hconn]
          simp only [List.nil_append]
          have := ih (stepState st)
          omega

theorem marker_once_built (steps : List (Nat × Option Imu × Nat))
    (st : LoggerState) (hm : st.serveMarker = true) :
    countFlagged (builtPackets st steps) ≤ 1 ∧
    (builtPackets st steps ≠ [] → countFlagged (builtPackets st steps) = 1) := by
  induction steps generalizing st with
  | nil => exact ⟨by norm_num [builtPackets, countFlagged], fun h => absurd rfl h⟩
  | cons s rest ih =>
    obtain ⟨now, imu, conn⟩ := s
    cases imu with
    | none =>
      rw [builtPackets_cons_none]
      exact ih st hm
    | some m =>
      cases hc : st.captureEnabled with
      | false =>
        rw [builtPackets_cons_off st now conn m rest hc]
        exact ih st hm
      | true =>
        rw [builtPackets_cons_on st now conn m rest hc, countFlagged_cons,
          markerBit_mkPkt, hm]
        rw [no_marker_no_flagged rest (stepState st) rfl]
        exact ⟨by norm_num, fun _ => by norm_num⟩

/-- C7: from any state with the one-shot marker pending, a run of
sampling iterations builds at most one packet carrying the marker bit,
hands at most that one to the transport, and if any packet is built at
all then exactly one is flagged. -/
theorem marker_one_shot (st : LoggerState)
    (steps : List (Nat × Option Imu × Nat)) (hm : st.serveMarker = true) :
    countFlagged (builtPackets st steps) ≤ 1 ∧
    countFlagged (sentPackets st steps) ≤ countFlagged (builtPackets st steps) ∧
    (builtPackets st steps ≠ [] → countFlagged (builtPackets st steps) = 1) :=
  ⟨(marker_once_built steps st hm).1, sent_flagged_le_built steps st,
    (marker_once_built steps st hm).2⟩

/-- State with capture on and a marker pending. -/
def stArmed : LoggerState := ⟨true, true, 6, 0, 0⟩

/-- Two connected sampling iterations for the C7 scenario. -/
def stepsW : List (Nat × Option Imu × Nat) :=
  [(10, some imuZero, 1), (20, some imuZero, 1)]

/-- Witness for C7: a pending marker followed by two captured samples
yields exactly one flagged packet. -/
theorem marker_one_shot_witness :
    countFlagged (builtPackets stArmed stepsW) = 1 := by
  have h := marker_one_shot stArmed stepsW rfl
  exact h.2.2 (by simp [stepsW, builtPackets, loopSampleStep, stArmed])

/-- C10: each session-start path — remote command 0x01, an accepted
button press toggling capture on, and a switch OFF-to-ON edge — sets the
one-shot marker besides incrementing the session id and resetting the
sequence counter; and from any state with capture on and the marker
pending, the next built packet carries the marker bit, so the first
packet of such a session is flagged. -/
theorem session_start_sets_marker (st : LoggerState) :
    ((onWrite st 1).serveMarker = true ∧ (onWrite st 1).captureEnabled = true ∧
      (onWrite st 1).sessionId = (st.sessionId + 1) % 65536 ∧
      (onWrite st 1).sampleSerial = 0) ∧
    (∀ now, 200 ≤ now - st.lastBtn → st.captureEnabled = false →
      (onButtonFalling st now).serveMarker = true ∧
      (onButtonFalling st now).captureEnabled = true ∧
      (onButtonFalling st now).sessionId = (st.sessionId + 1) % 65536 ∧
      (onButtonFalling st now).sampleSerial = 0) ∧
    ((switchCheck st true false).serveMarker = true ∧
      (switchCheck st true false).captureEnabled = true ∧
      (switchCheck st true false).sessionId = (st.sessionId + 1) % 65536 ∧
      (switchCheck st true false).sampleSerial = 0) ∧
    (∀ st2 now m conn, st2.serveMarker = true → st2.captureEnabled = true →
      ∃ pkt, (loopSampleStep st2 now (some m) conn).2.1 = some pkt ∧
        markerBit pkt = true) := by
  refine ⟨?_, ?_, ?_, ?_⟩
  · simp [onWrite]
  · intro now hnow hc
    have hne : ¬ (now - st.lastBtn < 200) := by omega
    simp [onButtonFalling, hne, hc]
  · simp [switchCheck]
  · intro st2 now m conn hm hc
    exact ⟨mkPkt st2 now m, by simp [loopSampleStep, hc],
      by rw [markerBit_mkPkt, hm]⟩

/-- Idle logger state for the C10 scenario. -/
def stIdle : LoggerState := ⟨false, false, 5, 7, 0⟩

/-- Witness for C10: all three start paths set the marker from an idle
state, and an armed state flags its next built packet. -/
theorem session_start_sets_marker_witness :
    (onWrite stIdle 1).serveMarker = true ∧
    (onButtonFalling stIdle 500).serveMarker = true ∧
    (switchCheck stIdle true false).serveMarker = true ∧
    ∃ pkt, (loopSampleStep stArmed 100 (some imuZero) 1).2.1 = some pkt ∧
      markerBit pkt = true := by
  have h := session_start_sets_marker stIdle
  exact ⟨h.1.1, (h.2.1 500 (by norm_num [stIdle]) rfl).1, h.2.2.1.1,
    h.2.2.2 stArmed 100 imuZero 1 rfl rfl⟩

end Logger
